import Mathlib

/-!
Shallow embedding of the Veritasor attestation contract
(src/contracts/attestation/src/lib.rs) and of the feature modules it calls.

Addresses and 32-byte merkle roots are modelled as natural numbers; Soroban
contract storage is modelled as explicit association lists inside one state
record.  Every public entry point is a function from a pre-state (plus the
set of principals that have authorized the call, standing for the host's
require_auth capability) to `Except Err CState`; a Soroban panic reverts the
whole transaction, which the embedding renders as returning `Except.error`
with no post-state, so an error result always leaves the chain state equal
to the pre-state.

The modules `dynamic_fees`, `access_control`, `multisig`, `extended_metadata`
and `events` are declared in lib.rs but their sources are not part of the
repository snapshot; their operations are modelled from the spec (see the
doc comments starting with "Modelled from the spec:").
-/

namespace Veritasor

/-- Role bit flags, re-exported from the access_control module. -/
def ROLE_ADMIN : Nat := 1

/-- Attestor role bit. -/
def ROLE_ATTESTOR : Nat := 2

/-- Business role bit. -/
def ROLE_BUSINESS : Nat := 4

/-- Operator role bit. -/
def ROLE_OPERATOR : Nat := 8

/-- Association-list lookup (the typed keyed store of §3/§9 of the spec). -/
def alookup {α β : Type} [DecidableEq α] : List (α × β) → α → Option β
  | [], _ => none
  | (k, v) :: rest, a => if k = a then some v else alookup rest a

/-- Association-list insert/overwrite. -/
def aset {α β : Type} [DecidableEq α] : List (α × β) → α → β → List (α × β)
  | [], a, b => [(a, b)]
  | (k, v) :: rest, a, b => if k = a then (k, b) :: rest else (k, v) :: aset rest a b

/-- Fee configuration singleton (dynamic_fees::FeeConfig). -/
structure FeeConfig where
  token : Nat
  collector : Nat
  base_fee : Int
  enabled : Bool
deriving DecidableEq, Repr

/-- A stored attestation record: the tuple
`(merkle_root, timestamp, version, fee_paid)` kept under
`DataKey::Attestation(business, period)` in lib.rs. -/
structure Att where
  merkle_root : Nat
  timestamp : Nat
  version : Nat
  fee_paid : Int
deriving DecidableEq, Repr

/-- Extended metadata record (extended_metadata::AttestationMetadata). -/
structure AttestationMetadata where
  currency_code : String
  is_net : Bool
deriving DecidableEq, Repr

/-- Events emitted by the events module; payloads follow §6 of the spec. -/
inductive Event where
  | attestationSubmitted (business : Nat) (period : String) (root ts ver : Nat) (fee : Int)
  | attestationRevoked (business : Nat) (period : String) (caller : Nat) (reason : String)
  | attestationMigrated (business : Nat) (period : String)
      (oldRoot newRoot oldVer newVer caller : Nat)
  | roleGranted (account role caller : Nat)
  | roleRevoked (account role caller : Nat)
  | pausedEv (caller : Nat)
  | unpausedEv (caller : Nat)
  | feeConfigChanged (token collector : Nat) (base_fee : Int) (enabled : Bool) (caller : Nat)
deriving DecidableEq, Repr

/-- Multisig proposal actions (multisig::ProposalAction), matched
exhaustively by execute_proposal in lib.rs. -/
inductive ProposalAction where
  | pauseAct
  | unpauseAct
  | addOwner (a : Nat)
  | removeOwner (a : Nat)
  | changeThreshold (t : Nat)
  | grantRoleAct (account role : Nat)
  | revokeRoleAct (account role : Nat)
  | updateFeeConfig (token collector : Nat) (base_fee : Int) (enabled : Bool)
deriving DecidableEq, Repr

/-- Stored proposal status markers.  Per §4.4 of the spec, Approved and
Expired are derived, not stored; only the terminal markers are stored. -/
inductive ProposalStatus where
  | pending
  | executed
  | rejected
deriving DecidableEq, Repr

/-- Modelled from the spec: a multisig proposal (§3): proposer, action,
set of distinct approvers, stored status marker, creation and expiry times. -/
structure Proposal where
  proposer : Nat
  action : ProposalAction
  approvals : List Nat
  status : ProposalStatus
  created : Nat
  expiry : Nat
deriving DecidableEq, Repr

/-- Error taxonomy (§7 of the spec).  In the Rust source these surface as
panics/asserts; the embedding names each abort reason. -/
inductive Err where
  | AlreadyInit
  | Unauthorized
  | Paused
  | NotFound
  | AlreadyExists
  | DuplicateInBatch
  | EmptyBatch
  | InvalidConfig
  | VersionNotIncreasing
  | ProposalNotApproved
  | ProposalExpired
  | ProposalAlreadyTerminal
deriving DecidableEq, Repr

/-- The whole contract-instance storage plus the externally visible
event log and token-transfer ledger. -/
structure CState where
  admin : Option Nat := none
  roles : List (Nat × Nat) := []
  paused : Bool := false
  feeConfig : Option FeeConfig := none
  tierDiscounts : List (Nat × Nat) := []
  businessTiers : List (Nat × Nat) := []
  volBrackets : List (Nat × Nat) := []
  businessCounts : List (Nat × Nat) := []
  attestations : List ((Nat × String) × Att) := []
  revokedKeys : List ((Nat × String) × Bool) := []
  metadata : List ((Nat × String) × AttestationMetadata) := []
  events : List Event := []
  transfers : List (Nat × Nat × Nat × Int) := []
  msOwners : List Nat := []
  msThreshold : Nat := 0
  proposals : List (Nat × Proposal) := []
  nextProposalId : Nat := 0
deriving DecidableEq, Repr

/-- Modelled from the spec: access_control role bitmap read (get_roles). -/
def get_roles (s : CState) (account : Nat) : Nat :=
  (alookup s.roles account).getD 0

/-- Modelled from the spec: access_control::has_role — test a role bit. -/
def has_role (s : CState) (account role : Nat) : Bool :=
  (get_roles s account &&& role) != 0

/-- Modelled from the spec: access_control::grant_role — OR the role bit in
(idempotent). -/
def grant_role_raw (s : CState) (account role : Nat) : CState :=
  { s with roles := aset s.roles account (get_roles s account ||| role) }

/-- Modelled from the spec: access_control::revoke_role — clear the role bit. -/
def revoke_role_raw (s : CState) (account role : Nat) : CState :=
  let cleared := get_roles s account ^^^ (get_roles s account &&& role)
  { s with roles := aset s.roles account cleared }

/-- Modelled from the spec: dynamic_fees::get_business_tier (0 if unset). -/
def get_business_tier (s : CState) (business : Nat) : Nat :=
  (alookup s.businessTiers business).getD 0

/-- Modelled from the spec: the business's tier discount — look up its tier
(default 0), then that tier's discount in basis points (default 0). -/
def tier_discount_of (s : CState) (business : Nat) : Nat :=
  (alookup s.tierDiscounts (get_business_tier s business)).getD 0

/-- Modelled from the spec: dynamic_fees::get_business_count —
cumulative successful-submission count for a business, 0 if unset. -/
def get_business_count (s : CState) (business : Nat) : Nat :=
  (alookup s.businessCounts business).getD 0

/-- Modelled from the spec: scan the volume bracket table in order keeping
the discount of the last bracket whose threshold is ≤ the count; with
strictly ascending thresholds this is the bracket with the greatest
threshold ≤ count (default 0 if no bracket qualifies). -/
def volume_discount_scan (brackets : List (Nat × Nat)) (count : Nat) : Nat :=
  brackets.foldl (fun acc td => if td.1 ≤ count then td.2 else acc) 0

/-- Modelled from the spec: dynamic_fees::calculate_fee — 0 when the fee
config is absent or disabled; otherwise
base_fee × (10000 − effective_discount) / 10000 truncated toward zero,
where the effective discount is the larger of the tier discount and the
volume discount (discounts do not stack). -/
def calculate_fee (s : CState) (business : Nat) : Int :=
  match s.feeConfig with
  | none => 0
  | some cfg =>
    if cfg.enabled then
      let d : Nat := max (tier_discount_of s business)
        (volume_discount_scan s.volBrackets (get_business_count s business))
      Int.tdiv (cfg.base_fee * (10000 - (d : Int))) 10000
    else 0

/-- get_fee_quote entry point (lib.rs): exposes calculate_fee. -/
def get_fee_quote (s : CState) (business : Nat) : Int :=
  calculate_fee s business

/-- Modelled from the spec: dynamic_fees::collect_fee — performs the same
calculation as calculate_fee and signals the amount to the external token
interface (recorded in the transfers ledger); returns the amount paid and
the updated state. -/
def collect_fee (s : CState) (business : Nat) : Int × CState :=
  let amt := calculate_fee s business
  match s.feeConfig with
  | some cfg =>
    if 0 < amt then
      (amt, { s with transfers := s.transfers ++ [(cfg.token, business, cfg.collector, amt)] })
    else (amt, s)
  | none => (amt, s)

/-- Modelled from the spec: dynamic_fees::increment_business_count —
advance the counter by exactly one. -/
def increment_business_count (s : CState) (business : Nat) : CState :=
  { s with businessCounts := aset s.businessCounts business (get_business_count s business + 1) }

/-- get_attestation entry point (lib.rs): stored record for
(business, period), if any. -/
def get_attestation (s : CState) (business : Nat) (period : String) : Option Att :=
  alookup s.attestations (business, period)

/-- is_revoked entry point (lib.rs): revocation flag, defaulting to false. -/
def is_revoked (s : CState) (business : Nat) (period : String) : Bool :=
  (alookup s.revokedKeys (business, period)).getD false

/-- Append one event to the event log. -/
def emit (s : CState) (e : Event) : CState :=
  { s with events := s.events ++ [e] }

/-- Write an attestation record under its (business, period) key. -/
def store_att (s : CState) (business : Nat) (period : String) (a : Att) : CState :=
  { s with attestations := aset s.attestations (business, period) a }

/-- One item of a batch submission (lib.rs BatchAttestationItem). -/
structure BatchAttestationItem where
  business : Nat
  period : String
  merkle_root : Nat
  timestamp : Nat
  version : Nat
deriving DecidableEq, Repr

/-- The state change of one accepted submission, shared verbatim by
submit_attestation and phase 3 of submit_attestations_batch in lib.rs:
collect the fee off the current count, increment the count, store the
record, emit the submitted event. -/
def process_item (s : CState) (item : BatchAttestationItem) : CState :=
  let fs := collect_fee s item.business
  let s2 := increment_business_count fs.2 item.business
  let s3 := store_att s2 item.business item.period
    ⟨item.merkle_root, item.timestamp, item.version, fs.1⟩
  emit s3 (.attestationSubmitted item.business item.period
    item.merkle_root item.timestamp item.version fs.1)

/-- submit_attestation entry point (lib.rs lines 385-420): not-paused
guard, business auth, AlreadyExists guard, then fee / count / store / event. -/
def submit_attestation (s : CState) (auths : List Nat) (business : Nat) (period : String)
    (merkle_root timestamp version : Nat) : Except Err CState :=
  if s.paused then .error .Paused
  else if business ∈ auths then
    if (get_attestation s business period).isSome then .error .AlreadyExists
    else .ok (process_item s ⟨business, period, merkle_root, timestamp, version⟩)
  else .error .Unauthorized

/-- Phase 1 of submit_attestations_batch (lib.rs lines 296-314): walk the
items and authenticate each distinct business exactly once, tracking the
already-authorized businesses in `seen`. -/
def batch_auth (auths : List Nat) : List Nat → List BatchAttestationItem → Except Err Unit
  | _, [] => .ok ()
  | seen, item :: rest =>
    if item.business ∈ seen then batch_auth auths seen rest
    else if item.business ∈ auths then batch_auth auths (seen ++ [item.business]) rest
    else .error .Unauthorized

/-- Phase 2 of submit_attestations_batch (lib.rs lines 316-333): for each
item, first fail on a later item with the same (business, period), then
fail if the key is already stored; no state is mutated. -/
def batch_validate (s : CState) : List BatchAttestationItem → Except Err Unit
  | [] => .ok ()
  | item :: rest =>
    if rest.any (fun o => o.business == item.business && o.period == item.period) then
      .error .DuplicateInBatch
    else if (get_attestation s item.business item.period).isSome then
      .error .AlreadyExists
    else batch_validate s rest

/-- Phase 3 of submit_attestations_batch (lib.rs lines 335-369): process
the items in input order. -/
def batch_commit : CState → List BatchAttestationItem → CState
  | s, [] => s
  | s, item :: rest => batch_commit (process_item s item) rest

/-- submit_attestations_batch entry point (lib.rs lines 287-370):
not-paused guard, empty-batch guard, then the three phases. -/
def submit_attestations_batch (s : CState) (auths : List Nat)
    (items : List BatchAttestationItem) : Except Err CState :=
  if s.paused then .error .Paused
  else if items.isEmpty then .error .EmptyBatch
  else
    match batch_auth auths [] items with
    | .error e => .error e
    | .ok () =>
      match batch_validate s items with
      | .error e => .error e
      | .ok () => .ok (batch_commit s items)

/-- One single submission per item, sequentially in list order: the
specification against which the batch entry point is compared. -/
def submit_seq (auths : List Nat) : CState → List BatchAttestationItem → Except Err CState
  | s, [] => .ok s
  | s, item :: rest =>
    match submit_attestation s auths item.business item.period
        item.merkle_root item.timestamp item.version with
    | .error e => .error e
    | .ok s1 => submit_seq auths s1 rest

/-- Modelled from the spec: extended_metadata::validate_metadata — the
currency code must be alphabetic with at most 3 characters; invalid input
aborts the call. -/
def validate_metadata (currency_code : String) (is_net : Bool) :
    Except Err AttestationMetadata :=
  if currency_code.length ≤ 3 then
    if currency_code.toList.all Char.isAlpha then
      .ok ⟨currency_code, is_net⟩
    else .error .InvalidConfig
  else .error .InvalidConfig

/-- submit_attestation_with_metadata entry point (lib.rs lines 428-464):
identical to submit_attestation up to storing the record, then validates
and stores the metadata record, then emits the submitted event.  The
metadata validation failure aborts the call, reverting the earlier writes. -/
def submit_attestation_with_metadata (s : CState) (auths : List Nat) (business : Nat)
    (period : String) (merkle_root timestamp version : Nat)
    (currency_code : String) (is_net : Bool) : Except Err CState :=
  if s.paused then .error .Paused
  else if business ∈ auths then
    if (get_attestation s business period).isSome then .error .AlreadyExists
    else
      let fs := collect_fee s business
      let s2 := increment_business_count fs.2 business
      let s3 := store_att s2 business period ⟨merkle_root, timestamp, version, fs.1⟩
      match validate_metadata currency_code is_net with
      | .error e => .error e
      | .ok md =>
        let s4 := { s3 with metadata := aset s3.metadata (business, period) md }
        .ok (emit s4 (.attestationSubmitted business period merkle_root
          timestamp version fs.1))
  else .error .Unauthorized

/-- revoke_attestation entry point (lib.rs lines 470-487): ADMIN-gated;
NotFound if the record is absent; sets the revocation flag under
DataKey::Revoked without touching the stored record; emits the revoked
event. -/
def revoke_attestation (s : CState) (auths : List Nat) (caller business : Nat)
    (period : String) (reason : String) : Except Err CState :=
  if caller ∈ auths then
    if has_role s caller ROLE_ADMIN then
      if (get_attestation s business period).isSome then
        let s1 := { s with revokedKeys := aset s.revokedKeys (business, period) true }
        .ok (emit s1 (.attestationRevoked business period caller reason))
      else .error .NotFound
    else .error .Unauthorized
  else .error .Unauthorized

/-- migrate_attestation entry point (lib.rs lines 493-528): ADMIN-gated;
NotFound if absent; requires new_version > stored version; replaces root
and version, preserving timestamp and fee_paid; emits the migrated event. -/
def migrate_attestation (s : CState) (auths : List Nat) (caller business : Nat)
    (period : String) (new_merkle_root new_version : Nat) : Except Err CState :=
  if caller ∈ auths then
    if has_role s caller ROLE_ADMIN then
      match get_attestation s business period with
      | none => .error .NotFound
      | some a =>
        if a.version < new_version then
          let s1 := store_att s business period
            ⟨new_merkle_root, a.timestamp, new_version, a.fee_paid⟩
          .ok (emit s1 (.attestationMigrated business period a.merkle_root
            new_merkle_root a.version new_version caller))
        else .error .VersionNotIncreasing
    else .error .Unauthorized
  else .error .Unauthorized

/-- verify_attestation entry point (lib.rs lines 560-578): false if
revoked, false if absent, else equality of stored and supplied root. -/
def verify_attestation (s : CState) (business : Nat) (period : String)
    (merkle_root : Nat) : Bool :=
  if is_revoked s business period then false
  else
    match get_attestation s business period with
    | some a => a.merkle_root == merkle_root
    | none => false

/-- The one-time initialization entry point (lib.rs lines 70-79, source
name initialize): aborts if already initialized, authenticates the admin,
stores the admin address (dynamic_fees::set_admin, modelled from the spec
as the admin field) and grants the ADMIN role. -/
def init_contract (s : CState) (auths : List Nat) (admin : Nat) : Except Err CState :=
  if s.admin.isSome then .error .AlreadyInit
  else if admin ∈ auths then
    let s1 : CState := { s with admin := some admin }
    .ok (grant_role_raw s1 admin ROLE_ADMIN)
  else .error .Unauthorized

/-- Modelled from the spec: multisig::is_owner. -/
def is_owner (s : CState) (a : Nat) : Bool :=
  s.msOwners.contains a

/-- get_proposal entry point: stored proposal by id, if any. -/
def get_proposal (s : CState) (id : Nat) : Option Proposal :=
  alookup s.proposals id

/-- Modelled from the spec: multisig::approve_proposal — the approver must
authenticate and be an owner; the proposal must exist and not be terminal;
a duplicate approval from the same owner is rejected, not a no-op. -/
def approve_proposal (s : CState) (auths : List Nat) (approver id : Nat) :
    Except Err CState :=
  if approver ∈ auths then
    if is_owner s approver then
      match get_proposal s id with
      | none => .error .NotFound
      | some p =>
        if p.status = ProposalStatus.pending then
          if approver ∈ p.approvals then .error .AlreadyExists
          else
            let p2 := { p with approvals := p.approvals ++ [approver] }
            .ok { s with proposals := aset s.proposals id p2 }
        else .error .ProposalAlreadyTerminal
    else .error .Unauthorized
  else .error .Unauthorized

/-- Modelled from the spec: multisig::is_proposal_approved — the derived
status is Approved when the proposal is not terminal and the number of
distinct approvers has reached the threshold. -/
def is_proposal_approved (s : CState) (id : Nat) : Bool :=
  match get_proposal s id with
  | some p => p.status == ProposalStatus.pending
      && decide (s.msThreshold ≤ p.approvals.dedup.length)
  | none => false

/-- Modelled from the spec: multisig::is_proposal_expired — the stored
expiry timestamp compared against the current ledger time. -/
def is_proposal_expired (s : CState) (now id : Nat) : Bool :=
  match get_proposal s id with
  | some p => decide (p.expiry < now)
  | none => false

/-- The action dispatch of execute_proposal (lib.rs lines 620-658),
matched exhaustively; each arm mutates state and emits the same event as
its direct admin-gated counterpart. -/
def apply_action (s : CState) (executor : Nat) : ProposalAction → CState
  | .pauseAct => emit { s with paused := true } (.pausedEv executor)
  | .unpauseAct => emit { s with paused := false } (.unpausedEv executor)
  | .addOwner a => { s with msOwners := s.msOwners ++ [a] }
  | .removeOwner a => { s with msOwners := s.msOwners.filter (fun x => x != a) }
  | .changeThreshold t => { s with msThreshold := t }
  | .grantRoleAct account role =>
      emit (grant_role_raw s account role) (.roleGranted account role executor)
  | .revokeRoleAct account role =>
      emit (revoke_role_raw s account role) (.roleRevoked account role executor)
  | .updateFeeConfig token collector base_fee enabled =>
      emit { s with feeConfig := some ⟨token, collector, base_fee, enabled⟩ }
        (.feeConfigChanged token collector base_fee enabled executor)

/-- Modelled from the spec: multisig::mark_executed — set the stored
terminal marker. -/
def mark_executed (s : CState) (id : Nat) : CState :=
  match alookup s.proposals id with
  | some p =>
    let p2 := { p with status := ProposalStatus.executed }
    { s with proposals := aset s.proposals id p2 }
  | none => s

/-- execute_proposal entry point (lib.rs lines 606-661): the executor must
authenticate and be an owner; asserts is_proposal_approved and not
is_proposal_expired; loads the proposal, dispatches on the action, marks
the proposal executed. -/
def execute_proposal (s : CState) (auths : List Nat) (now executor id : Nat) :
    Except Err CState :=
  if executor ∈ auths then
    if is_owner s executor then
      if is_proposal_approved s id then
        if is_proposal_expired s now id then .error .ProposalExpired
        else
          match get_proposal s id with
          | none => .error .NotFound
          | some p => .ok (mark_executed (apply_action s executor p.action) id)
      else .error .ProposalNotApproved
    else .error .Unauthorized
  else .error .Unauthorized

/-- Two batch items address the same storage key. -/
def same_key (a b : BatchAttestationItem) : Prop :=
  a.business = b.business ∧ a.period = b.period

/-! Concrete scenario states used to instantiate the theorems. -/

/-- A freshly deployed, unconfigured contract state. -/
def stEmpty : CState := {}

/-- A paused contract state. -/
def stPaused : CState := { paused := true }

/-- A state where principal 9 holds the ADMIN role and business 1 has one
stored attestation for period 2026-01. -/
def stWithAtt : CState :=
  { roles := [(9, 1)], attestations := [((1, "2026-01"), ⟨5, 100, 1, 0⟩)] }

/-- A state with fees enabled (base 1000), a 1000 bps tier discount for
business 1's tier, and a 2000 bps volume bracket already reached by
business 1's count of 10. -/
def stFee : CState :=
  { feeConfig := some ⟨7, 8, 1000, true⟩, tierDiscounts := [(1, 1000)],
    businessTiers := [(1, 1)], volBrackets := [(5, 2000)],
    businessCounts := [(1, 10)] }

/-- A multisig state: 3 owners, threshold 2, proposal 0 pending with two
distinct approvals and expiry 100. -/
def stMulti : CState :=
  { msOwners := [1, 2, 3], msThreshold := 2,
    proposals := [(0, ⟨1, ProposalAction.pauseAct, [1, 2], ProposalStatus.pending, 0, 100⟩)] }

/-- Two items of the same business for distinct periods. -/
def itemsDemo : List BatchAttestationItem :=
  [⟨1, "2026-01", 5, 100, 1⟩, ⟨1, "2026-02", 6, 200, 1⟩]

/-- Two items sharing the same (business, period) key. -/
def itemsDup : List BatchAttestationItem :=
  [⟨1, "2026-01", 5, 100, 1⟩, ⟨1, "2026-01", 6, 200, 1⟩]

/-! Store lemmas. -/

theorem alookup_aset_self {α β : Type} [DecidableEq α] (l : List (α × β)) (a : α) (b : β) :
    alookup (aset l a b) a = some b := by
  induction l with
  | nil => simp [aset, alookup]
  | cons kv rest ih =>
    obtain ⟨k, v⟩ := kv
    by_cases h : k = a
    · simp [aset, alookup, h]
    · simp [aset, alookup, h, ih]

theorem alookup_aset_ne {α β : Type} [DecidableEq α] (l : List (α × β)) (a a2 : α) (b : β)
    (h : a ≠ a2) : alookup (aset l a b) a2 = alookup l a2 := by
  induction l with
  | nil => simp [aset, alookup, h]
  | cons kv rest ih =>
    obtain ⟨k, v⟩ := kv
    by_cases hk : k = a
    · subst hk
      simp [aset, alookup, h]
    · simp [aset, alookup, hk, ih]

theorem lor_land_self (x r : Nat) : (x ||| r) &&& r = r := by
  apply Nat.eq_of_testBit_eq
  intro i
  rcases hr : r.testBit i <;> rcases hx : x.testBit i <;>
    simp [Nat.testBit_land, Nat.testBit_lor, hr, hx]

/-! Projection lemmas: collect_fee only touches the transfers ledger, and
process_item only touches the counters, the attestation store under its own
key, the transfers ledger and the event log. -/

theorem collect_fee_snd_paused (s : CState) (b : Nat) :
    (collect_fee s b).2.paused = s.paused := by
  rcases hc : s.feeConfig with _ | cfg
  · simp [collect_fee, hc]
  · simp only [collect_fee, hc]
    split <;> rfl

theorem collect_fee_snd_attestations (s : CState) (b : Nat) :
    (collect_fee s b).2.attestations = s.attestations := by
  rcases hc : s.feeConfig with _ | cfg
  · simp [collect_fee, hc]
  · simp only [collect_fee, hc]
    split <;> rfl

theorem process_item_paused (s : CState) (it : BatchAttestationItem) :
    (process_item s it).paused = s.paused := by
  simp [process_item, emit, store_att, increment_business_count, collect_fee_snd_paused]

theorem get_attestation_process_item_ne (s : CState) (it : BatchAttestationItem)
    (b : Nat) (p : String) (h : ¬ (b = it.business ∧ p = it.period)) :
    get_attestation (process_item s it) b p = get_attestation s b p := by
  have hk : ((it.business, it.period) : Nat × String) ≠ (b, p) := by
    intro he
    rw [Prod.ext_iff] at he
    exact h ⟨he.1.symm, he.2.symm⟩
  simp only [process_item, emit, store_att, increment_business_count, get_attestation]
  rw [alookup_aset_ne _ _ _ _ hk]
  rw [collect_fee_snd_attestations]

/-! Soundness of the three batch phases. -/

theorem batch_auth_sound (auths : List Nat) :
    ∀ (items : List BatchAttestationItem) (seen : List Nat),
      (∀ x ∈ seen, x ∈ auths) → batch_auth auths seen items = .ok () →
      ∀ it ∈ items, it.business ∈ auths := by
  intro items
  induction items with
  | nil =>
    intro seen _ _ it hit
    simp at hit
  | cons item rest ih =>
    intro seen hseen h it hit
    by_cases hm : item.business ∈ seen
    · rw [batch_auth, if_pos hm] at h
      rcases List.mem_cons.mp hit with heq | hmem
      · rw [heq]; exact hseen _ hm
      · exact ih seen hseen h _ hmem
    · rw [batch_auth, if_neg hm] at h
      by_cases ha : item.business ∈ auths
      · rw [if_pos ha] at h
        rcases List.mem_cons.mp hit with heq | hmem
        · rw [heq]; exact ha
        · refine ih (seen ++ [item.business]) ?_ h _ hmem
          intro x hx
          rcases List.mem_append.mp hx with hx1 | hx2
          · exact hseen _ hx1
          · simp at hx2
            rw [hx2]; exact ha
      · rw [if_neg ha] at h
        exact absurd h (by simp)

theorem batch_validate_sound (s : CState) :
    ∀ items, batch_validate s items = .ok () →
      items.Pairwise (fun a b => ¬ same_key a b) ∧
      ∀ it ∈ items, get_attestation s it.business it.period = none := by
  intro items
  induction items with
  | nil =>
    intro _
    exact ⟨List.Pairwise.nil, by simp⟩
  | cons item rest ih =>
    intro h
    rcases hdup : rest.any (fun o => o.business == item.business && o.period == item.period) with _ | _
    · rcases hex : get_attestation s item.business item.period with _ | a
      · simp only [batch_validate, hdup, hex] at h
        simp at h
        obtain ⟨hpw, hfresh⟩ := ih h
        refine ⟨List.Pairwise.cons ?_ hpw, ?_⟩
        · intro o ho hsk
          have : rest.any (fun o => o.business == item.business && o.period == item.period) = true := by
            refine List.any_eq_true.mpr ⟨o, ho, ?_⟩
            obtain ⟨h1, h2⟩ := hsk
            rw [← h1, ← h2]
            simp
          rw [hdup] at this
          exact absurd this (by simp)
        · intro it hit
          rcases List.mem_cons.mp hit with heq | hmem
          · rw [heq]; exact hex
          · exact hfresh _ hmem
      · simp only [batch_validate, hdup, hex] at h
        simp at h
    · simp only [batch_validate, hdup] at h
      simp at h

theorem batch_validate_congr (s s2 : CState) :
    ∀ items, (∀ it ∈ items, get_attestation s2 it.business it.period
        = get_attestation s it.business it.period) →
      batch_validate s2 items = batch_validate s items := by
  intro items
  induction items with
  | nil => intro _; rfl
  | cons item rest ih =>
    intro hagree
    have hhead := hagree item (List.mem_cons_self item rest)
    have htail := ih (fun it hit => hagree it (List.mem_cons_of_mem _ hit))
    simp only [batch_validate, hhead, htail]

/-- One accepted single submission equals one batch-commit step. -/
theorem submit_attestation_ok (s : CState) (auths : List Nat) (item : BatchAttestationItem)
    (hp : s.paused = false) (ha : item.business ∈ auths)
    (hfresh : get_attestation s item.business item.period = none) :
    submit_attestation s auths item.business item.period item.merkle_root
      item.timestamp item.version = .ok (process_item s item) := by
  rw [submit_attestation, hp]
  simp only [Bool.false_eq_true, if_false]
  rw [if_pos ha, hfresh]
  rfl

/-- Phase 3 after a passed phase 2 behaves as sequential single submissions. -/
theorem seq_of_phases (auths : List Nat) :
    ∀ (items : List BatchAttestationItem) (s : CState),
      s.paused = false →
      (∀ it ∈ items, it.business ∈ auths) →
      batch_validate s items = .ok () →
      submit_seq auths s items = .ok (batch_commit s items) := by
  intro items
  induction items with
  | nil => intro s _ _ _; rfl
  | cons item rest ih =>
    intro s hp ha hv
    rcases hdup : rest.any (fun o => o.business == item.business && o.period == item.period) with _ | _
    · rcases hex : get_attestation s item.business item.period with _ | a
      · simp only [batch_validate, hdup, hex] at hv
        simp at hv
        have hsub := submit_attestation_ok s auths item hp (ha item (List.mem_cons_self item rest)) hex
        rw [submit_seq, hsub]
        have hagree : ∀ it ∈ rest, get_attestation (process_item s item) it.business it.period
            = get_attestation s it.business it.period := by
          intro it hit
          apply get_attestation_process_item_ne
          intro hkey
          have : rest.any (fun o => o.business == item.business && o.period == item.period) = true := by
            refine List.any_eq_true.mpr ⟨it, hit, ?_⟩
            rw [hkey.1, hkey.2]
            simp
          rw [hdup] at this
          exact absurd this (by simp)
        have : submit_seq auths (process_item s item) rest
            = .ok (batch_commit (process_item s item) rest) := by
          refine ih (process_item s item) ?_ ?_ ?_
          · rw [process_item_paused]; exact hp
          · intro it hit; exact ha it (List.mem_cons_of_mem _ hit)
          · rw [batch_validate_congr s (process_item s item) rest hagree]
            exact hv
        show submit_seq auths (process_item s item) rest = _
        rw [this]
        rfl
      · simp only [batch_validate, hdup, hex] at hv
        simp at hv
    · simp only [batch_validate, hdup] at hv
      simp at hv

/-! Characterization of the volume bracket scan. -/

theorem scan_no_qualifying (count : Nat) :
    ∀ (l : List (Nat × Nat)) (a : Nat), (∀ td ∈ l, count < td.1) →
      l.foldl (fun acc td => if td.1 ≤ count then td.2 else acc) a = a := by
  intro l
  induction l with
  | nil => intro a _; rfl
  | cons td rest ih =>
    intro a hall
    have h1 : ¬ td.1 ≤ count := by
      have := hall td (List.mem_cons_self td rest)
      omega
    rw [List.foldl_cons, if_neg h1]
    exact ih a (fun x hx => hall x (List.mem_cons_of_mem _ hx))

/-- With strictly ascending thresholds, the scan returns the discount of
the bracket with the greatest threshold that is at most the count, or the
initial accumulator if no bracket qualifies. -/
theorem scan_spec (count : Nat) :
    ∀ (l : List (Nat × Nat)), l.Pairwise (fun x y => x.1 < y.1) →
      ∀ (a : Nat),
      ((∀ td ∈ l, count < td.1) ∧
        l.foldl (fun acc td => if td.1 ≤ count then td.2 else acc) a = a) ∨
      (∃ td ∈ l, td.1 ≤ count ∧
        l.foldl (fun acc td => if td.1 ≤ count then td.2 else acc) a = td.2 ∧
        ∀ td2 ∈ l, td2.1 ≤ count → td2.1 ≤ td.1) := by
  intro l
  induction l with
  | nil =>
    intro _ a
    left
    exact ⟨by simp, rfl⟩
  | cons td rest ih =>
    intro hpw a
    have hpwrest := List.Pairwise.of_cons hpw
    have hhead : ∀ y ∈ rest, td.1 < y.1 := fun y hy => List.rel_of_pairwise_cons hpw hy
    by_cases ht : td.1 ≤ count
    · rw [List.foldl_cons, if_pos ht]
      rcases ih hpwrest td.2 with ⟨hall, heq⟩ | ⟨td3, hmem, hle, heq, hmax⟩
      · right
        refine ⟨td, List.mem_cons_self td rest, ht, heq, ?_⟩
        intro td2 h2 hle2
        rcases List.mem_cons.mp h2 with h3 | h3
        · rw [h3]
        · exact absurd hle2 (by have := hall td2 h3; omega)
      · right
        refine ⟨td3, List.mem_cons_of_mem _ hmem, hle, heq, ?_⟩
        intro td2 h2 hle2
        rcases List.mem_cons.mp h2 with h3 | h3
        · have := hhead td3 hmem
          rw [h3]
          omega
        · exact hmax td2 h3 hle2
    · left
      have hall : ∀ td2 ∈ td :: rest, count < td2.1 := by
        intro td2 h2
        rcases List.mem_cons.mp h2 with h3 | h3
        · rw [h3]; omega
        · have := hhead td2 h3
          omega
      refine ⟨hall, ?_⟩
      rw [List.foldl_cons, if_neg ht]
      exact scan_no_qualifying count rest a
        (fun x hx => hall x (List.mem_cons_of_mem _ hx))

/-- Inversion of a successful batch submission: every guard and phase
passed, and the post-state is the phase-3 commit. -/
theorem batch_ok_inv (s s2 : CState) (auths : List Nat) (items : List BatchAttestationItem)
    (h : submit_attestations_batch s auths items = .ok s2) :
    s.paused = false ∧ items.isEmpty = false ∧ batch_auth auths [] items = .ok () ∧
    batch_validate s items = .ok () ∧ s2 = batch_commit s items := by
  rcases hps : s.paused with _ | _
  · rcases hni : items.isEmpty with _ | _
    · rcases hba : batch_auth auths [] items with e | u
      · exfalso
        unfold submit_attestations_batch at h
        rw [hps, hni, hba] at h
        simp at h
      · obtain ⟨⟩ := u
        rcases hbv : batch_validate s items with e | u
        · exfalso
          unfold submit_attestations_batch at h
          rw [hps, hni, hba, hbv] at h
          simp at h
        · obtain ⟨⟩ := u
          unfold submit_attestations_batch at h
          rw [hps, hni, hba, hbv] at h
          simp at h
          exact ⟨rfl, rfl, rfl, rfl, h.symm⟩
    · exfalso
      unfold submit_attestations_batch at h
      rw [hps, hni] at h
      simp at h
  · exfalso
    unfold submit_attestations_batch at h
    rw [hps] at h
    simp at h

/-- C1: for every list of items, a successful submit_attestations_batch
leaves the post-state (attestation store, per-business cumulative counts,
per-item fees in the stored records and the transfer ledger, and the
emitted events) exactly equal to executing submit_attestation once per
item sequentially in list order; the conclusion equates the entire
post-states, so in particular the second item of a business in one batch
is priced against the count already incremented by the first. -/
theorem batch_refines_sequential (s s2 : CState) (auths : List Nat)
    (items : List BatchAttestationItem)
    (h : submit_attestations_batch s auths items = .ok s2) :
    submit_seq auths s items = .ok s2 := by
  obtain ⟨hps, _, hba, hbv, hs2⟩ := batch_ok_inv s s2 auths items h
  rw [hs2]
  refine seq_of_phases auths items s hps ?_ hbv
  exact batch_auth_sound auths items [] (by simp) hba

/-- C1 witness: a concrete two-item batch of one business succeeds and the
sequential submissions produce the same post-state. -/
theorem batch_refines_sequential_witness :
    submit_seq [1] stEmpty itemsDemo = .ok (batch_commit stEmpty itemsDemo) :=
  batch_refines_sequential stEmpty (batch_commit stEmpty itemsDemo) [1] itemsDemo rfl

/-- C3: a batch that is empty, contains two items sharing a (business,
period) key, or contains an item whose key is already stored, fails; the
embedding returns an error with no post-state, which is the transactional
no-partial-write semantics: no attestation from the batch is stored, no
business count is incremented and no event is emitted. -/
theorem batch_atomic (s : CState) (auths : List Nat) (items : List BatchAttestationItem)
    (hbad : items = [] ∨ ¬ items.Pairwise (fun a b => ¬ same_key a b) ∨
      ∃ it ∈ items, (get_attestation s it.business it.period).isSome = true) :
    ∃ e, submit_attestations_batch s auths items = .error e := by
  rcases hres : submit_attestations_batch s auths items with e | s2
  · exact ⟨e, rfl⟩
  · exfalso
    obtain ⟨_, hni, _, hbv, _⟩ := batch_ok_inv s s2 auths items hres
    obtain ⟨hpw, hfresh⟩ := batch_validate_sound s items hbv
    rcases hbad with hemp | hdup | ⟨it, hit, hsome⟩
    · rw [hemp] at hni
      simp at hni
    · exact hdup hpw
    · rw [hfresh it hit] at hsome
      simp at hsome

/-- C3 witness: a batch with two items sharing one (business, period) key
fails. -/
theorem batch_atomic_witness :
    (itemsDup = [] ∨ ¬ itemsDup.Pairwise (fun a b => ¬ same_key a b) ∨
      ∃ it ∈ itemsDup, (get_attestation stEmpty it.business it.period).isSome = true) ∧
    ∃ e, submit_attestations_batch stEmpty [1] itemsDup = .error e :=
  ⟨Or.inr (Or.inl (by simp [itemsDup, List.pairwise_cons, same_key])),
   batch_atomic stEmpty [1] itemsDup
     (Or.inr (Or.inl (by simp [itemsDup, List.pairwise_cons, same_key])))⟩

/-- C9: with the contract not paused and the business authorized, a second
submit_attestation for an already-stored (business, period) key fails with
AlreadyExists regardless of the new merkle root, timestamp or version; the
error return carries no post-state, so the stored record and the business
count are unchanged. -/
theorem second_submit_already_exists (s : CState) (auths : List Nat)
    (business : Nat) (period : String) (merkle_root timestamp version : Nat)
    (hp : s.paused = false) (ha : business ∈ auths)
    (hstored : (get_attestation s business period).isSome = true) :
    submit_attestation s auths business period merkle_root timestamp version
      = .error .AlreadyExists := by
  unfold submit_attestation
  rw [hp]
  simp only [Bool.false_eq_true, if_false]
  rw [if_pos ha, if_pos hstored]

/-- C9 witness: resubmitting a stored key with a different payload fails. -/
theorem second_submit_already_exists_witness :
    stWithAtt.paused = false ∧ (1 : Nat) ∈ [1] ∧
    (get_attestation stWithAtt 1 "2026-01").isSome = true ∧
    submit_attestation stWithAtt [1] 1 "2026-01" 77 999 3 = .error .AlreadyExists :=
  ⟨rfl, by simp, by decide,
   second_submit_already_exists stWithAtt [1] 1 "2026-01" 77 999 3 rfl (by simp) (by decide)⟩

/-- C8: while the pause flag is set, submit_attestation,
submit_attestations_batch and submit_attestation_with_metadata all fail
with Paused for every input (before any state change: the error return
carries no post-state), and the reads get_attestation and
verify_attestation do not depend on the pause flag at all. -/
theorem pause_gating (s : CState) (auths : List Nat) (business : Nat) (period : String)
    (merkle_root timestamp version : Nat) (currency_code : String) (is_net : Bool)
    (items : List BatchAttestationItem) (hp : s.paused = true) :
    submit_attestation s auths business period merkle_root timestamp version
      = .error .Paused ∧
    submit_attestations_batch s auths items = .error .Paused ∧
    submit_attestation_with_metadata s auths business period merkle_root timestamp
      version currency_code is_net = .error .Paused ∧
    (∀ b : Bool, get_attestation { s with paused := b } business period
        = get_attestation s business period ∧
      verify_attestation { s with paused := b } business period merkle_root
        = verify_attestation s business period merkle_root) := by
  refine ⟨?_, ?_, ?_, ?_⟩
  · unfold submit_attestation
    rw [hp]
    simp
  · unfold submit_attestations_batch
    rw [hp]
    simp
  · unfold submit_attestation_with_metadata
    rw [hp]
    simp
  · intro b
    exact ⟨rfl, rfl⟩

/-- C8 witness: a concrete paused state rejects all three submission entry
points and the reads ignore the flag. -/
theorem pause_gating_witness :
    stPaused.paused = true ∧
    (submit_attestation stPaused [1] 1 "2026-01" 5 100 1 = .error .Paused ∧
    submit_attestations_batch stPaused [1] itemsDemo = .error .Paused ∧
    submit_attestation_with_metadata stPaused [1] 1 "2026-01" 5 100 1 "USD" true
      = .error .Paused ∧
    (∀ b : Bool, get_attestation { stPaused with paused := b } 1 "2026-01"
        = get_attestation stPaused 1 "2026-01" ∧
      verify_attestation { stPaused with paused := b } 1 "2026-01" 5
        = verify_attestation stPaused 1 "2026-01" 5)) :=
  ⟨rfl, pause_gating stPaused [1] 1 "2026-01" 5 100 1 "USD" true itemsDemo rfl⟩

/-- C4: for a stored attestation and an authenticated admin caller,
migrate_attestation succeeds iff new_version > stored version (failing
with NotFound when the key is absent and VersionNotIncreasing otherwise);
a successful migration replaces root and version while preserving
timestamp, fee_paid and the revocation flag, and a subsequent
get_attestation returns the new root and version. -/
theorem migrate_attestation_spec (s : CState) (auths : List Nat) (caller business : Nat)
    (period : String) (new_merkle_root new_version : Nat) (a : Att)
    (hauth : caller ∈ auths) (hadmin : has_role s caller ROLE_ADMIN = true)
    (hstored : get_attestation s business period = some a) :
    (a.version < new_version →
      ∃ s2, migrate_attestation s auths caller business period new_merkle_root new_version
          = .ok s2 ∧
        get_attestation s2 business period
          = some ⟨new_merkle_root, a.timestamp, new_version, a.fee_paid⟩ ∧
        is_revoked s2 business period = is_revoked s business period) ∧
    (¬ a.version < new_version →
      migrate_attestation s auths caller business period new_merkle_root new_version
        = .error .VersionNotIncreasing) ∧
    (∀ business2 period2, get_attestation s business2 period2 = none →
      migrate_attestation s auths caller business2 period2 new_merkle_root new_version
        = .error .NotFound) := by
  refine ⟨?_, ?_, ?_⟩
  · intro hv
    refine ⟨emit (store_att s business period
        ⟨new_merkle_root, a.timestamp, new_version, a.fee_paid⟩)
      (.attestationMigrated business period a.merkle_root new_merkle_root
        a.version new_version caller), ?_, ?_, ?_⟩
    · simp [migrate_attestation, hauth, hadmin, hstored, hv]
    · simp [get_attestation, emit, store_att, alookup_aset_self]
    · rfl
  · intro hv
    simp [migrate_attestation, hauth, hadmin, hstored, hv]
  · intro business2 period2 hnone
    simp [migrate_attestation, hauth, hadmin, hnone]

/-- C4 witness: migrating the stored (1, 2026-01) record from version 1 to
version 2 succeeds and preserves timestamp, fee and revocation flag; the
other clauses are instantiated at the same state. -/
theorem migrate_attestation_spec_witness :
    ((9 : Nat) ∈ [9] ∧ has_role stWithAtt 9 ROLE_ADMIN = true ∧
      get_attestation stWithAtt 1 "2026-01" = some ⟨5, 100, 1, 0⟩) ∧
    ((Att.version ⟨5, 100, 1, 0⟩ < 2 →
      ∃ s2, migrate_attestation stWithAtt [9] 9 1 "2026-01" 77 2 = .ok s2 ∧
        get_attestation s2 1 "2026-01" = some ⟨77, 100, 2, 0⟩ ∧
        is_revoked s2 1 "2026-01" = is_revoked stWithAtt 1 "2026-01") ∧
    (¬ Att.version ⟨5, 100, 1, 0⟩ < 2 →
      migrate_attestation stWithAtt [9] 9 1 "2026-01" 77 2
        = .error .VersionNotIncreasing) ∧
    (∀ business2 period2, get_attestation stWithAtt business2 period2 = none →
      migrate_attestation stWithAtt [9] 9 business2 period2 77 2
        = .error .NotFound)) :=
  ⟨⟨by simp, by decide, by decide⟩,
   migrate_attestation_spec stWithAtt [9] 9 1 "2026-01" 77 2 ⟨5, 100, 1, 0⟩
     (by simp) (by decide) (by decide)⟩

/-- C6: after a successful revoke_attestation, verify_attestation returns
false for every supplied root, while get_attestation still returns the
stored record unchanged. -/
theorem revoke_then_verify (s : CState) (auths : List Nat) (caller business : Nat)
    (period : String) (reason : String)
    (hauth : caller ∈ auths) (hadmin : has_role s caller ROLE_ADMIN = true)
    (hstored : (get_attestation s business period).isSome = true) :
    ∃ s2, revoke_attestation s auths caller business period reason = .ok s2 ∧
      (∀ root, verify_attestation s2 business period root = false) ∧
      get_attestation s2 business period = get_attestation s business period := by
  refine ⟨emit { s with revokedKeys := aset s.revokedKeys (business, period) true }
      (.attestationRevoked business period caller reason), ?_, ?_, ?_⟩
  · simp [revoke_attestation, hauth, hadmin, hstored]
  · intro root
    unfold verify_attestation
    have hrv : is_revoked (emit { s with revokedKeys := aset s.revokedKeys (business, period) true }
        (.attestationRevoked business period caller reason)) business period = true := by
      simp [is_revoked, emit, alookup_aset_self]
    rw [hrv]
    simp
  · rfl

/-- C6 witness: revoking the stored (1, 2026-01) record makes every
verification fail while the stored record is unchanged. -/
theorem revoke_then_verify_witness :
    ((9 : Nat) ∈ [9] ∧ has_role stWithAtt 9 ROLE_ADMIN = true ∧
      (get_attestation stWithAtt 1 "2026-01").isSome = true) ∧
    ∃ s2, revoke_attestation stWithAtt [9] 9 1 "2026-01" "fraud" = .ok s2 ∧
      (∀ root, verify_attestation s2 1 "2026-01" root = false) ∧
      get_attestation s2 1 "2026-01" = get_attestation stWithAtt 1 "2026-01" :=
  ⟨⟨by simp, by decide, by decide⟩,
   revoke_then_verify stWithAtt [9] 9 1 "2026-01" "fraud"
     (by simp) (by decide) (by decide)⟩

/-- C5: a call to submit_attestation_with_metadata with an invalid
currency code (longer than 3 characters or containing a non-alphabetic
character) fails for every state and input; the error return carries no
post-state, so no record is stored, no count is incremented and no fee is
collected. -/
theorem metadata_invalid_currency (s : CState) (auths : List Nat) (business : Nat)
    (period : String) (merkle_root timestamp version : Nat) (currency_code : String)
    (is_net : Bool)
    (hbad : ¬ (currency_code.length ≤ 3 ∧ currency_code.toList.all Char.isAlpha = true)) :
    ∃ e, submit_attestation_with_metadata s auths business period merkle_root timestamp
      version currency_code is_net = .error e := by
  have hvm : validate_metadata currency_code is_net = .error .InvalidConfig := by
    unfold validate_metadata
    by_cases h1 : currency_code.length ≤ 3
    · rcases h2 : currency_code.toList.all Char.isAlpha with _ | _
      · rw [if_pos h1]
        simp
      · exact absurd ⟨h1, h2⟩ hbad
    · rw [if_neg h1]
  unfold submit_attestation_with_metadata
  rcases hps : s.paused with _ | _
  · by_cases ha : business ∈ auths
    · rw [if_pos ha]
      rcases hex : (get_attestation s business period).isSome with _ | _
      · rw [hvm]
        exact ⟨.InvalidConfig, by simp⟩
      · exact ⟨.AlreadyExists, by simp⟩
    · rw [if_neg ha]
      exact ⟨.Unauthorized, by simp⟩
  · exact ⟨.Paused, by simp⟩

/-- C5 witness: a 4-character currency code is rejected. -/
theorem metadata_invalid_currency_witness :
    (¬ ("USDX".length ≤ 3 ∧ "USDX".toList.all Char.isAlpha = true)) ∧
    ∃ e, submit_attestation_with_metadata stEmpty [1] 1 "2026-01" 5 100 1 "USDX" true
      = .error e :=
  ⟨by decide,
   metadata_invalid_currency stEmpty [1] 1 "2026-01" 5 100 1 "USDX" true (by decide)⟩

/-- C10: on an uninitialized contract, a successful one-time
initialization grants the ADMIN role to the supplied admin address, and
every subsequent initialization call fails with no state change. -/
theorem init_grants_admin (s : CState) (auths : List Nat) (admin : Nat)
    (hun : s.admin = none) (hauth : admin ∈ auths) :
    ∃ s2, init_contract s auths admin = .ok s2 ∧
      has_role s2 admin ROLE_ADMIN = true ∧
      ∀ auths2 admin2, init_contract s2 auths2 admin2 = .error .AlreadyInit := by
  refine ⟨grant_role_raw { s with admin := some admin } admin ROLE_ADMIN, ?_, ?_, ?_⟩
  · simp [init_contract, hun, hauth]
  · simp [has_role, get_roles, grant_role_raw, alookup_aset_self, lor_land_self, ROLE_ADMIN]
  · intro auths2 admin2
    simp [init_contract, grant_role_raw]

/-- C10 witness: initializing the fresh state with admin 9 grants the
ADMIN role and blocks a second initialization. -/
theorem init_grants_admin_witness :
    (stEmpty.admin = none ∧ (9 : Nat) ∈ [9]) ∧
    ∃ s2, init_contract stEmpty [9] 9 = .ok s2 ∧
      has_role s2 9 ROLE_ADMIN = true ∧
      ∀ auths2 admin2, init_contract s2 auths2 admin2 = .error .AlreadyInit :=
  ⟨⟨rfl, by simp⟩, init_grants_admin stEmpty [9] 9 rfl (by simp)⟩

/-- C2: get_fee_quote (calculate_fee) returns 0 when the fee config is
absent or disabled; otherwise it returns base_fee × (10000 − d) / 10000
truncated toward zero, where d is the maximum (not the sum) of the
business's tier discount (default 0) and the volume discount of the
bracket with the greatest threshold ≤ the business's current cumulative
count (default 0 if no bracket qualifies); the bracket table is assumed
strictly ascending, as enforced by set_volume_brackets. -/
theorem fee_quote_spec (s : CState) (b : Nat) (cfg : FeeConfig)
    (hasc : s.volBrackets.Pairwise (fun x y => x.1 < y.1)) :
    (s.feeConfig = none → get_fee_quote s b = 0) ∧
    (s.feeConfig = some cfg → cfg.enabled = false → get_fee_quote s b = 0) ∧
    (s.feeConfig = some cfg → cfg.enabled = true →
      ∃ dvol : Nat,
        ((∀ td ∈ s.volBrackets, get_business_count s b < td.1) ∧ dvol = 0 ∨
          ∃ td ∈ s.volBrackets, td.1 ≤ get_business_count s b ∧ dvol = td.2 ∧
            ∀ td2 ∈ s.volBrackets, td2.1 ≤ get_business_count s b → td2.1 ≤ td.1) ∧
        get_fee_quote s b = Int.tdiv (cfg.base_fee *
          (10000 - ((max (tier_discount_of s b) dvol : Nat) : Int))) 10000) := by
  refine ⟨?_, ?_, ?_⟩
  · intro h
    simp [get_fee_quote, calculate_fee, h]
  · intro h he
    simp [get_fee_quote, calculate_fee, h, he]
  · intro h he
    refine ⟨volume_discount_scan s.volBrackets (get_business_count s b), ?_, ?_⟩
    · rcases scan_spec (get_business_count s b) s.volBrackets hasc 0 with ⟨hall, heq⟩ | hex
      · left
        exact ⟨hall, heq⟩
      · right
        exact hex
    · simp [get_fee_quote, calculate_fee, h, he, volume_discount_scan]

/-- C2 witness: base fee 1000, tier discount 1000 bps, a reached volume
bracket of 2000 bps: the effective discount is the larger of the two. -/
theorem fee_quote_spec_witness :
    stFee.volBrackets.Pairwise (fun x y => x.1 < y.1) ∧
    ((stFee.feeConfig = none → get_fee_quote stFee 1 = 0) ∧
    (stFee.feeConfig = some ⟨7, 8, 1000, true⟩ → FeeConfig.enabled ⟨7, 8, 1000, true⟩ = false →
      get_fee_quote stFee 1 = 0) ∧
    (stFee.feeConfig = some ⟨7, 8, 1000, true⟩ → FeeConfig.enabled ⟨7, 8, 1000, true⟩ = true →
      ∃ dvol : Nat,
        ((∀ td ∈ stFee.volBrackets, get_business_count stFee 1 < td.1) ∧ dvol = 0 ∨
          ∃ td ∈ stFee.volBrackets, td.1 ≤ get_business_count stFee 1 ∧ dvol = td.2 ∧
            ∀ td2 ∈ stFee.volBrackets, td2.1 ≤ get_business_count stFee 1 → td2.1 ≤ td.1) ∧
        get_fee_quote stFee 1 = Int.tdiv (FeeConfig.base_fee ⟨7, 8, 1000, true⟩ *
          (10000 - ((max (tier_discount_of stFee 1) dvol : Nat) : Int))) 10000)) :=
  ⟨by simp [stFee], fee_quote_spec stFee 1 ⟨7, 8, 1000, true⟩ (by simp [stFee])⟩

/-- C7: execute_proposal succeeds only when the executor is a multisig
owner, the number of distinct approving owners reaches the threshold, the
proposal is still pending (so executing an already-executed proposal
fails) and the proposal has not expired; a duplicate approval from an
owner already in the approval set is rejected rather than counted twice. -/
theorem execute_proposal_spec (s : CState) (auths : List Nat) (now executor id : Nat)
    (p : Proposal) (hp : get_proposal s id = some p) :
    (∀ s2, execute_proposal s auths now executor id = .ok s2 →
      is_owner s executor = true ∧ s.msThreshold ≤ p.approvals.dedup.length ∧
      p.status = ProposalStatus.pending ∧ ¬ p.expiry < now) ∧
    (p.status = ProposalStatus.executed →
      ∀ s2, execute_proposal s auths now executor id ≠ .ok s2) ∧
    (∀ approver, approver ∈ p.approvals →
      ∀ s2, approve_proposal s auths approver id ≠ .ok s2) := by
  refine ⟨?_, ?_, ?_⟩
  · intro s2 h
    by_cases hx : executor ∈ auths
    · rw [execute_proposal, if_pos hx] at h
      rcases how : is_owner s executor with _ | _
      · rw [how] at h
        simp at h
      · rw [how, if_pos rfl] at h
        rcases hap : is_proposal_approved s id with _ | _
        · rw [hap] at h
          simp at h
        · rw [hap, if_pos rfl] at h
          rcases hexp : is_proposal_expired s now id with _ | _
          · simp only [is_proposal_approved, hp] at hap
            simp at hap
            simp only [is_proposal_expired, hp] at hexp
            simp at hexp
            exact ⟨rfl, hap.2, hap.1, by omega⟩
          · rw [hexp] at h
            simp at h
    · rw [execute_proposal, if_neg hx] at h
      simp at h
  · intro hst s2 h
    by_cases hx : executor ∈ auths
    · rw [execute_proposal, if_pos hx] at h
      rcases how : is_owner s executor with _ | _
      · rw [how] at h
        simp at h
      · rw [how, if_pos rfl] at h
        have hap : is_proposal_approved s id = false := by
          simp [is_proposal_approved, hp, hst]
        rw [hap] at h
        simp at h
    · rw [execute_proposal, if_neg hx] at h
      simp at h
  · intro approver hmem s2 h
    by_cases hx : approver ∈ auths
    · rw [approve_proposal, if_pos hx] at h
      rcases how : is_owner s approver with _ | _
      · rw [how] at h
        simp at h
      · rw [how, if_pos rfl] at h
        simp only [hp] at h
        by_cases hst : p.status = ProposalStatus.pending
        · rw [if_pos hst, if_pos hmem] at h
          simp at h
        · rw [if_neg hst] at h
          simp at h
    · rw [approve_proposal, if_neg hx] at h
      simp at h

/-- C7 witness: 3 owners, threshold 2, a pending proposal with two
distinct approvals: executing is gated exactly as claimed and a duplicate
approval by owner 1 is rejected. -/
theorem execute_proposal_spec_witness :
    get_proposal stMulti 0
      = some ⟨1, ProposalAction.pauseAct, [1, 2], ProposalStatus.pending, 0, 100⟩ ∧
    ((∀ s2, execute_proposal stMulti [1] 5 1 0 = .ok s2 →
      is_owner stMulti 1 = true ∧
      stMulti.msThreshold ≤ (Proposal.approvals
        ⟨1, ProposalAction.pauseAct, [1, 2], ProposalStatus.pending, 0, 100⟩).dedup.length ∧
      Proposal.status ⟨1, ProposalAction.pauseAct, [1, 2], ProposalStatus.pending, 0, 100⟩
        = ProposalStatus.pending ∧
      ¬ Proposal.expiry ⟨1, ProposalAction.pauseAct, [1, 2], ProposalStatus.pending, 0, 100⟩ < 5) ∧
    (Proposal.status ⟨1, ProposalAction.pauseAct, [1, 2], ProposalStatus.pending, 0, 100⟩
        = ProposalStatus.executed →
      ∀ s2, execute_proposal stMulti [1] 5 1 0 ≠ .ok s2) ∧
    (∀ approver, approver ∈ Proposal.approvals
        ⟨1, ProposalAction.pauseAct, [1, 2], ProposalStatus.pending, 0, 100⟩ →
      ∀ s2, approve_proposal stMulti [1] approver 0 ≠ .ok s2)) :=
  ⟨by decide,
   execute_proposal_spec stMulti [1] 5 1 0
     ⟨1, ProposalAction.pauseAct, [1, 2], ProposalStatus.pending, 0, 100⟩ (by decide)⟩

end Veritasor
